import Mathlib

/-!
# JillBag: a verification model of `jillBag.js`

This file shallowly embeds the two classes of `jillBag.js` — `JillBagHost`
and `JillBagPlayer` — as explicit state machines in Lean 4, and proves (or
refutes) the specification's claims about them.

Modelling conventions:

* A transport connection handle (`DataConnection`) is identified by a
  natural number `cid`.  The observable transport facts the code relies on
  (the handle's readable `open` status, the close requests the code has
  issued via `conn.close()`, and the payloads forwarded via `conn.send`)
  are kept as explicit fields of the session state.
* Notifications delivered by the external transport client (`open`,
  `data`, `close`, `error` of a connection, and the signaling-level
  `open` / `error` / `disconnected` of the peer) are events; the step
  functions below execute exactly the handler bodies the JS code attaches.
* Handler registration matters: `jillBag.js` attaches `data`/`close`/`error`
  handlers only inside a connection's own `open` handler, and each handler
  captures the logical identity read from metadata at that moment.  The
  `wired` field records these registrations in order; delivering an event
  runs the handler body once per registration, exactly as an event emitter
  would.
* JavaScript payload values are modelled by `Payload`, which includes the
  empty/absent values `undef` and `null`; the code never inspects payloads.
* `try { conn.close() } catch {}`: the transport's close operation may
  throw; the code swallows the outcome.  Operations therefore take a
  `fails` oracle saying which handles throw, and the definitions record
  the attempted request and discard the outcome — which is precisely what
  the empty catch block does.
* `Math.floor(Math.random() * alphabet.length)` yields an index in
  `[0, alphabet.length)`; it is modelled by an arbitrary oracle
  `r : Nat → Nat` reduced modulo the alphabet length.
-/

namespace JillBag

/-- A JavaScript value sent as a message payload.  The core forwards
payloads opaquely, so a representative value model (including the
empty/absent values) suffices. -/
inductive Payload where
  | undef : Payload
  | null : Payload
  | str : String → Payload
  | num : Int → Payload
deriving DecidableEq, Repr

/-! ## Association-list model of a JavaScript `Map`

`JillBagHost` keeps its registry in a `Map<string, DataConnection>`.
We model it as an association list with the `Map` operations `get`,
`has`, `delete`, `set` (a `set` of an existing key updates it in place,
preserving iteration order, as `Map.prototype.set` does). -/

def assocGet {α β : Type} [BEq α] (m : List (α × β)) (k : α) : Option β :=
  (m.find? (fun p => p.1 == k)).map (fun p => p.2)

def assocHas {α β : Type} [BEq α] (m : List (α × β)) (k : α) : Bool :=
  (assocGet m k).isSome

def assocDelete {α β : Type} [BEq α] (m : List (α × β)) (k : α) : List (α × β) :=
  m.filter (fun p => !(p.1 == k))

def assocSet {α β : Type} [BEq α] (m : List (α × β)) (k : α) (v : β) : List (α × β) :=
  if assocHas m k then m.map (fun p => if p.1 == k then (k, v) else p)
  else m ++ [(k, v)]

def keysOf {α β : Type} (m : List (α × β)) : List α := m.map (fun p => p.1)

/-! ## Identity generation and transport addresses -/

/-- Default alphabet of `randomString`. -/
def upperAlphabet : String := "ABCDEFGHIJKLMNOPQRSTUVWXYZ"

/-- `randomString(len)` of `jillBag.js`: each character is
`alphabet[Math.floor(Math.random() * alphabet.length)]`; the `i`-th
random draw is modelled by the oracle value `r i` reduced modulo the
alphabet length. -/
def randomString (len : Nat) (r : Nat → Nat) : String :=
  String.mk ((List.range len).map
    (fun i => upperAlphabet.data.getD (r i % upperAlphabet.length) 'A'))

/-- `JillBagHost._hostPeerId(hostId)`. -/
def hostPeerId (hostId : String) : String := "JillBagHost" ++ hostId

/-- `JillBagPlayer._playerPeerId(playerId)`. -/
def playerPeerId (playerId : String) : String := "JillBagPlayer" ++ playerId

/-! ## Host side: `JillBagHost` -/

/-- An invocation of one of the host's overridable hooks. -/
inductive HostHook where
  | hpeerReady : String → HostHook
  | hpeerError : String → HostHook
  | hopen : String → HostHook
  | hdata : String → Payload → HostHook
  | hclose : String → HostHook
  | herror : String → String → HostHook
deriving DecidableEq, Repr

/-- The state of a `JillBagHost` together with the observable state of
the transport handles it interacts with. -/
structure HostState where
  /-- `this.hostId`: the 6-letter room code. -/
  hostId : String
  /-- The address the `Peer` was constructed with. -/
  peerAddr : String
  /-- `this._others`: logical player identity → connection handle. -/
  others : List (String × Nat)
  /-- Handles currently reporting `conn.open === true`. -/
  openConns : List Nat
  /-- Transport `close()` requests issued so far, in order. -/
  closeReqs : List Nat
  /-- `data`/`close`/`error` handler registrations: the handle and the
  logical identity captured from its metadata when the handlers were
  attached (inside that connection's own `open` handler). -/
  wired : List (Nat × String)
  /-- Payloads forwarded with `conn.send(data)`, per handle, in order. -/
  sent : List (Nat × Payload)
  /-- Hook invocations, oldest first. -/
  hooks : List HostHook
  /-- Number of `this._peer.reconnect()` requests issued. -/
  reconnectReqs : Nat
deriving DecidableEq, Repr

/-- `new JillBagHost()`: generates the room code, constructs the peer
under the derived address, and starts with an empty registry. -/
def hostNew (r : Nat → Nat) : HostState :=
  let hid := randomString 6 r
  { hostId := hid
    peerAddr := hostPeerId hid
    others := []
    openConns := []
    closeReqs := []
    wired := []
    sent := []
    hooks := []
    reconnectReqs := 0 }

/-- `JillBagHost.close(otherId)`:
`const conn = this._others.get(otherId); if (conn) try { conn.close(); } catch {};
this._others.delete(otherId);` — the catch block is empty, so the
post-state does not depend on whether the transport close throws
(`fails`). -/
def hostClose (s : HostState) (otherId : String) (fails : Nat → Bool) : HostState :=
  match assocGet s.others otherId with
  | some cid =>
      { s with closeReqs := s.closeReqs ++ [cid]
               openConns := s.openConns.filter (fun c => !(c == cid))
               others := assocDelete s.others otherId }
  | none =>
      { s with others := assocDelete s.others otherId }

/-- `JillBagHost.send(otherId, data)`: registry lookup; absent or
not-open handle gives `false` with no action (only a console warning);
otherwise the payload is forwarded verbatim and the result is `true`. -/
def hostSend (s : HostState) (otherId : String) (d : Payload) : HostState × Bool :=
  match assocGet s.others otherId with
  | none => (s, false)
  | some cid =>
      if s.openConns.contains cid then
        ({ s with sent := s.sent ++ [(cid, d)] }, true)
      else
        (s, false)

/-- Body of the `closeAll()` loop: one `try { conn.close(); } catch {}`
for the registry entry `p`. -/
def hostCloseAllStep (acc : HostState) (p : String × Nat) : HostState :=
  { acc with closeReqs := acc.closeReqs ++ [p.2]
             openConns := acc.openConns.filter (fun c => !(c == p.2)) }

/-- `JillBagHost.closeAll()`: `for (const [, conn] of this._others)
try { conn.close(); } catch {}; this._others.clear();` — every close
outcome is swallowed, so the post-state does not depend on `fails`. -/
def hostCloseAll (s : HostState) (fails : Nat → Bool) : HostState :=
  let s1 := s.others.foldl hostCloseAllStep s
  { s1 with others := [] }

/-- Handler body of `conn.on('open', ...)` inside the host's
`connection` handler (the connection's own open notification): read the
declared identity from metadata, evict a previous connection with the
same identity via `this.close(otherId)`, insert the new handle, attach
its `data`/`close`/`error` handlers, and invoke the open hook.  The
handle reports open from this notification on. -/
def hostConnOpenEvt (s : HostState) (cid : Nat) (metaId : String) (fails : Nat → Bool) :
    HostState :=
  let s0 := { s with openConns := if s.openConns.contains cid then s.openConns
                                  else s.openConns ++ [cid] }
  let s1 := if assocHas s0.others metaId then hostClose s0 metaId fails else s0
  { s1 with others := assocSet s1.others metaId cid
            wired := s1.wired ++ [(cid, metaId)]
            hooks := s1.hooks ++ [HostHook.hopen metaId] }

/-- Delivery of a connection's `data` notification: each handler
registered on that handle forwards the payload to the data hook, tagged
with its captured identity. -/
def hostConnDataEvt (s : HostState) (cid : Nat) (d : Payload) : HostState :=
  (s.wired.filter (fun p => p.1 == cid)).foldl
    (fun acc p => { acc with hooks := acc.hooks ++ [HostHook.hdata p.2 d] }) s

/-- Delivery of a connection's `close` notification: the handle stops
reporting open, and each registered close handler runs
`this._others.delete(otherId); this.handleClose(otherId);` with its
captured identity. -/
def hostConnCloseEvt (s : HostState) (cid : Nat) : HostState :=
  let s1 := { s with openConns := s.openConns.filter (fun c => !(c == cid)) }
  (s1.wired.filter (fun p => p.1 == cid)).foldl
    (fun acc p =>
      { acc with others := assocDelete acc.others p.2
                 hooks := acc.hooks ++ [HostHook.hclose p.2] })
    s1

/-- Delivery of a connection's `error` notification: each registered
error handler invokes the error hook with its captured identity; nothing
else happens. -/
def hostConnErrorEvt (s : HostState) (cid : Nat) (err : String) : HostState :=
  (s.wired.filter (fun p => p.1 == cid)).foldl
    (fun acc p => { acc with hooks := acc.hooks ++ [HostHook.herror p.2 err] }) s

/-- A notification delivered to the host by the external transport
client. -/
inductive HostEvent where
  | peerOpen : String → HostEvent
  | peerError : String → HostEvent
  | peerDisconnected : HostEvent
  | connOpen : Nat → String → HostEvent
  | connData : Nat → Payload → HostEvent
  | connClose : Nat → HostEvent
  | connError : Nat → String → HostEvent
deriving DecidableEq, Repr

/-- Dispatch one transport notification to the host's handlers. -/
def hostStep (s : HostState) (e : HostEvent) (fails : Nat → Bool) : HostState :=
  match e with
  | HostEvent.peerOpen myId => { s with hooks := s.hooks ++ [HostHook.hpeerReady myId] }
  | HostEvent.peerError err => { s with hooks := s.hooks ++ [HostHook.hpeerError err] }
  | HostEvent.peerDisconnected => { s with reconnectReqs := s.reconnectReqs + 1 }
  | HostEvent.connOpen cid metaId => hostConnOpenEvt s cid metaId fails
  | HostEvent.connData cid d => hostConnDataEvt s cid d
  | HostEvent.connClose cid => hostConnCloseEvt s cid
  | HostEvent.connError cid err => hostConnErrorEvt s cid err

/-- Anything that can happen to a host: a transport notification or a
public operation invoked by the application. -/
inductive HostAction where
  | evt : HostEvent → HostAction
  | sendOp : String → Payload → HostAction
  | closeOp : String → HostAction
  | closeAllOp : HostAction
deriving DecidableEq, Repr

/-- Execute one action on the host state. -/
def hostDo (fails : Nat → Bool) (s : HostState) (a : HostAction) : HostState :=
  match a with
  | HostAction.evt e => hostStep s e fails
  | HostAction.sendOp otherId d => (hostSend s otherId d).1
  | HostAction.closeOp otherId => hostClose s otherId fails
  | HostAction.closeAllOp => hostCloseAll s fails

/-- Execute a sequence of actions on the host state. -/
def hostRun (fails : Nat → Bool) (s : HostState) (acts : List HostAction) : HostState :=
  acts.foldl (hostDo fails) s

/-- The registry holds at most one entry per logical identity. -/
def registryUnique (s : HostState) : Prop := (keysOf s.others).Nodup

/-! ## Player side: `JillBagPlayer` -/

/-- An invocation of one of the player's overridable hooks. -/
inductive PlayerHook where
  | ppeerReady : String → PlayerHook
  | ppeerError : String → PlayerHook
  | popen : PlayerHook
  | pdata : Payload → PlayerHook
  | pclose : PlayerHook
  | perror : String → PlayerHook
deriving DecidableEq, Repr

/-- One `this._peer.connect(...)` call issued by `_connectToHost`. -/
structure ConnectAttempt where
  /-- The dialed address: `JillBagHost._hostPeerId(this.hostId)`. -/
  target : String
  /-- The attached metadata object: `{ id: this._playerId }`. -/
  metadata : List (String × String)
  /-- The serialization option: `'json'`. -/
  serialization : String
  /-- The connection handle the transport returned for this attempt. -/
  cid : Nat
deriving DecidableEq, Repr

/-- The state of a `JillBagPlayer` together with the observable state of
the transport handles it interacts with.  Handles created by the
player's own `connect` calls are numbered `0, 1, ...`; `nextCid` is the
next fresh handle. -/
structure PlayerState where
  /-- `this.hostId`: the room code supplied to the constructor. -/
  hostId : String
  /-- `this._playerId`: the 10-letter logical player identity. -/
  playerId : String
  /-- The address the `Peer` was constructed with. -/
  peerAddr : String
  /-- `this._conn`: the active connection slot. -/
  conn : Option Nat
  /-- Next fresh handle returned by `connect`. -/
  nextCid : Nat
  /-- Handles currently reporting `conn.open === true`. -/
  openConns : List Nat
  /-- Transport `close()` requests issued so far, in order. -/
  closeReqs : List Nat
  /-- The `connect` calls issued so far, in order. -/
  attempts : List ConnectAttempt
  /-- Handles carrying `data`/`close`/`error` handler registrations.
  The handlers are attached inside a connection's `open` handler — to
  whatever handle `this._conn` holds at that moment — so a handle may
  appear several times. -/
  wired : List Nat
  /-- Payloads forwarded with `this._conn.send(data)`, per handle. -/
  sentHost : List (Nat × Payload)
  /-- Hook invocations, oldest first. -/
  hooks : List PlayerHook
  /-- Number of `this._peer.reconnect()` requests issued. -/
  reconnectReqs : Nat
deriving DecidableEq, Repr

/-- `new JillBagPlayer(hostId)`: stores the room code, generates the
logical player identity, constructs the peer under the derived address,
and starts with an empty connection slot. -/
def playerNew (hostId : String) (r : Nat → Nat) : PlayerState :=
  let pid := randomString 10 r
  { hostId := hostId
    playerId := pid
    peerAddr := playerPeerId pid
    conn := none
    nextCid := 0
    openConns := []
    closeReqs := []
    attempts := []
    wired := []
    sentHost := []
    hooks := []
    reconnectReqs := 0 }

/-- `JillBagPlayer._connectToHost()`: dial the host's derived address
with `{ metadata: { id: this._playerId }, serialization: 'json' }`, and
store the returned handle in the slot. -/
def playerConnectToHost (s : PlayerState) : PlayerState :=
  let cid := s.nextCid
  { s with conn := some cid
           nextCid := cid + 1
           attempts := s.attempts ++
             [{ target := hostPeerId s.hostId
                metadata := [("id", s.playerId)]
                serialization := "json"
                cid := cid }] }

/-- Is the slot's connection currently open?  This is the JS condition
`this._conn && this._conn.open`. -/
def playerConnIsOpen (s : PlayerState) : Bool :=
  match s.conn with
  | some cid => s.openConns.contains cid
  | none => false

/-- Handler of the peer's `open` (signaling-ready) notification:
`if (!this._conn || !this._conn.open) this._connectToHost();
this.handlePeerReady(myId);`. -/
def playerPeerOpenEvt (s : PlayerState) (myId : String) : PlayerState :=
  let s1 := if playerConnIsOpen s then s else playerConnectToHost s
  { s1 with hooks := s1.hooks ++ [PlayerHook.ppeerReady myId] }

/-- Delivery of the open notification of a handle the player created.
The handle reports open from now on; the `open` handler registered at
connect time attaches `data`/`close`/`error` handlers to `this._conn`
— the handle currently in the slot, not necessarily the one that just
opened — and invokes the open hook.  If the slot is empty,
`this._conn.on(...)` throws on the null slot and nothing further runs
in the handler. -/
def playerConnOpenEvt (s : PlayerState) (cid : Nat) : PlayerState :=
  if cid < s.nextCid then
    let s1 := { s with openConns := if s.openConns.contains cid then s.openConns
                                    else s.openConns ++ [cid] }
    match s1.conn with
    | some cur =>
        { s1 with wired := s1.wired ++ [cur]
                  hooks := s1.hooks ++ [PlayerHook.popen] }
    | none => s1
  else s

/-- Delivery of a handle's `data` notification: each handler registered
on it forwards the payload to the data hook. -/
def playerConnDataEvt (s : PlayerState) (cid : Nat) (d : Payload) : PlayerState :=
  (s.wired.filter (fun c => c == cid)).foldl
    (fun acc _ => { acc with hooks := acc.hooks ++ [PlayerHook.pdata d] }) s

/-- Delivery of a handle's `close` notification: the handle stops
reporting open, and each registered close handler runs
`this._conn = null; this.handleClose();`. -/
def playerConnCloseEvt (s : PlayerState) (cid : Nat) : PlayerState :=
  let s1 := { s with openConns := s.openConns.filter (fun c => !(c == cid)) }
  (s1.wired.filter (fun c => c == cid)).foldl
    (fun acc _ =>
      { acc with conn := none
                 hooks := acc.hooks ++ [PlayerHook.pclose] })
    s1

/-- Delivery of a handle's `error` notification: each registered error
handler invokes the error hook; nothing else happens. -/
def playerConnErrorEvt (s : PlayerState) (cid : Nat) (err : String) : PlayerState :=
  (s.wired.filter (fun c => c == cid)).foldl
    (fun acc _ => { acc with hooks := acc.hooks ++ [PlayerHook.perror err] }) s

/-- `JillBagPlayer.sendHost(data)`: `false` with no action when the slot
is empty or its handle is not open; otherwise forward the payload
verbatim and return `true`. -/
def playerSendHost (s : PlayerState) (d : Payload) : PlayerState × Bool :=
  match s.conn with
  | none => (s, false)
  | some cid =>
      if s.openConns.contains cid then
        ({ s with sentHost := s.sentHost ++ [(cid, d)] }, true)
      else
        (s, false)

/-- `JillBagPlayer.closeHost()`: best-effort close of the slot's handle
(`try { this._conn.close(); } catch {}` — outcome discarded) and
unconditional clearing of the slot. -/
def playerCloseHost (s : PlayerState) (fails : Nat → Bool) : PlayerState :=
  match s.conn with
  | some cid =>
      { s with closeReqs := s.closeReqs ++ [cid]
               openConns := s.openConns.filter (fun c => !(c == cid))
               conn := none }
  | none => { s with conn := none }

/-- A notification delivered to the player by the external transport
client. -/
inductive PlayerEvent where
  | peerOpen : String → PlayerEvent
  | peerError : String → PlayerEvent
  | peerDisconnected : PlayerEvent
  | connOpen : Nat → PlayerEvent
  | connData : Nat → Payload → PlayerEvent
  | connClose : Nat → PlayerEvent
  | connError : Nat → String → PlayerEvent
deriving DecidableEq, Repr

/-- Dispatch one transport notification to the player's handlers. -/
def playerStep (s : PlayerState) (e : PlayerEvent) : PlayerState :=
  match e with
  | PlayerEvent.peerOpen myId => playerPeerOpenEvt s myId
  | PlayerEvent.peerError err => { s with hooks := s.hooks ++ [PlayerHook.ppeerError err] }
  | PlayerEvent.peerDisconnected => { s with reconnectReqs := s.reconnectReqs + 1 }
  | PlayerEvent.connOpen cid => playerConnOpenEvt s cid
  | PlayerEvent.connData cid d => playerConnDataEvt s cid d
  | PlayerEvent.connClose cid => playerConnCloseEvt s cid
  | PlayerEvent.connError cid err => playerConnErrorEvt s cid err

/-! ## Lemmas about the `Map` model -/

theorem assocGet_delete_self {α β : Type} [BEq α] (m : List (α × β)) (k : α) :
    assocGet (assocDelete m k) k = none := by
  have h : (assocDelete m k).find? (fun p => p.1 == k) = none := by
    rw [List.find?_eq_none]
    intro p hp
    have hmem := List.of_mem_filter hp
    simpa using hmem
  simp [assocGet, h]

theorem assocDelete_of_get_none {α β : Type} [BEq α] {m : List (α × β)} {k : α}
    (h : assocGet m k = none) : assocDelete m k = m := by
  have hfind : m.find? (fun p => p.1 == k) = none := by
    simpa [assocGet] using h
  have h' := List.find?_eq_none.mp hfind
  unfold assocDelete
  rw [List.filter_eq_self]
  intro p hp
  simpa using h' p hp

theorem assocGet_set_self {α β : Type} [BEq α] [LawfulBEq α]
    (m : List (α × β)) (k : α) (v : β) : assocGet (assocSet m k v) k = some v := by
  unfold assocSet
  by_cases hhas : assocHas m k = true
  · simp only [hhas, if_true]
    induction m with
    | nil => simp [assocHas, assocGet] at hhas
    | cons p m ih =>
        cases hpk : (p.1 == k) with
        | true =>
            simp [assocGet, List.find?, hpk]
        | false =>
            have hhas' : assocHas m k = true := by
              simpa [assocHas, assocGet, List.find?, hpk] using hhas
            have := ih hhas'
            simpa [assocGet, List.find?, hpk] using this
  · simp only [hhas, if_false]
    have hfind : m.find? (fun p => p.1 == k) = none := by
      have : assocGet m k = none := by
        cases hg : assocGet m k with
        | none => rfl
        | some v' => exact absurd (by simp [assocHas, hg]) hhas
      simpa [assocGet] using this
    simp [assocGet, List.find?_append, hfind]

theorem keysOf_delete_sublist {α β : Type} [BEq α] (m : List (α × β)) (k : α) :
    (keysOf (assocDelete m k)).Sublist (keysOf m) :=
  List.Sublist.map _ (List.filter_sublist m)

theorem registryNodup_delete {α β : Type} [BEq α] {m : List (α × β)} (k : α)
    (h : (keysOf m).Nodup) : (keysOf (assocDelete m k)).Nodup :=
  (keysOf_delete_sublist m k).nodup h

theorem not_mem_keys_of_get_none {α β : Type} [BEq α] [LawfulBEq α]
    {m : List (α × β)} {k : α} (h : assocGet m k = none) : k ∉ keysOf m := by
  intro hmem
  obtain ⟨p, hp, hfst⟩ := List.mem_map.mp hmem
  have hfind : m.find? (fun p => p.1 == k) = none := by simpa [assocGet] using h
  have := List.find?_eq_none.mp hfind p hp
  simp [hfst] at this

theorem registryNodup_set {α β : Type} [BEq α] [LawfulBEq α]
    {m : List (α × β)} (k : α) (v : β)
    (h : (keysOf m).Nodup) : (keysOf (assocSet m k v)).Nodup := by
  unfold assocSet
  by_cases hhas : assocHas m k = true
  · simp only [hhas, if_true]
    have hkeys : keysOf (m.map (fun p => if p.1 == k then (k, v) else p)) = keysOf m := by
      unfold keysOf
      rw [List.map_map]
      apply List.map_congr_left
      intro p _
      cases hpk : (p.1 == k) with
      | true => simp [hpk, eq_of_beq hpk]
      | false => simp [hpk]
    rw [hkeys]; exact h
  · rw [if_neg hhas]
    have hget : assocGet m k = none := by
      cases hg : assocGet m k with
      | none => rfl
      | some v' => exact absurd (by simp [assocHas, hg]) hhas
    have hnot := not_mem_keys_of_get_none hget
    have : keysOf (m ++ [(k, v)]) = keysOf m ++ [k] := by simp [keysOf]
    rw [this]
    simpa [List.nodup_append] using ⟨h, hnot⟩

/-! ## Generic foldl preservation -/

theorem foldl_preserves_proj {σ α γ : Type} (f : σ → α → σ) (proj : σ → γ)
    (h : ∀ s a, proj (f s a) = proj s) :
    ∀ (l : List α) (s : σ), proj (l.foldl f s) = proj s := by
  intro l
  induction l with
  | nil => intro s; rfl
  | cons a l ih => intro s; rw [List.foldl_cons, ih, h]

theorem foldl_preserves_prop {σ α : Type} (f : σ → α → σ) (P : σ → Prop)
    (h : ∀ s a, P s → P (f s a)) :
    ∀ (l : List α) (s : σ), P s → P (l.foldl f s) := by
  intro l
  induction l with
  | nil => intro s hs; exact hs
  | cons a l ih => intro s hs; rw [List.foldl_cons]; exact ih _ (h s a hs)

/-! ## Registry uniqueness is an invariant of every host action -/

theorem hostClose_registryUnique (s : HostState) (otherId : String) (fails : Nat → Bool)
    (h : registryUnique s) : registryUnique (hostClose s otherId fails) := by
  unfold hostClose
  cases assocGet s.others otherId with
  | none => exact registryNodup_delete otherId h
  | some cid => exact registryNodup_delete otherId h

theorem hostConnOpenEvt_registryUnique (s : HostState) (cid : Nat) (metaId : String)
    (fails : Nat → Bool) (h : registryUnique s) :
    registryUnique (hostConnOpenEvt s cid metaId fails) := by
  unfold hostConnOpenEvt
  apply registryNodup_set
  by_cases hhas : assocHas s.others metaId = true
  · simp only [hhas, if_true]
    exact hostClose_registryUnique _ _ _ h
  · rw [if_neg hhas]
    exact h

theorem hostConnCloseEvt_registryUnique (s : HostState) (cid : Nat)
    (h : registryUnique s) : registryUnique (hostConnCloseEvt s cid) := by
  unfold hostConnCloseEvt
  refine foldl_preserves_prop _ registryUnique ?_ _ _ h
  intro st p hp
  exact registryNodup_delete p.2 hp

theorem hostConnDataEvt_others (s : HostState) (cid : Nat) (d : Payload) :
    (hostConnDataEvt s cid d).others = s.others := by
  unfold hostConnDataEvt
  refine foldl_preserves_proj _ (fun st : HostState => st.others) ?_ _ _
  intro st p
  rfl

theorem hostConnErrorEvt_others (s : HostState) (cid : Nat) (err : String) :
    (hostConnErrorEvt s cid err).others = s.others := by
  unfold hostConnErrorEvt
  refine foldl_preserves_proj _ (fun st : HostState => st.others) ?_ _ _
  intro st p
  rfl

theorem hostSend_fst_others (s : HostState) (otherId : String) (d : Payload) :
    (hostSend s otherId d).1.others = s.others := by
  unfold hostSend
  cases assocGet s.others otherId with
  | none => rfl
  | some cid =>
      cases hopen : s.openConns.contains cid with
      | true => simp only [hopen, if_true]
      | false => simp only [hopen, Bool.false_eq_true, if_false]

theorem hostCloseAll_others (s : HostState) (fails : Nat → Bool) :
    (hostCloseAll s fails).others = [] := rfl

theorem hostStep_registryUnique (s : HostState) (e : HostEvent) (fails : Nat → Bool)
    (h : registryUnique s) : registryUnique (hostStep s e fails) := by
  cases e with
  | peerOpen myId => exact h
  | peerError err => exact h
  | peerDisconnected => exact h
  | connOpen cid metaId => exact hostConnOpenEvt_registryUnique s cid metaId fails h
  | connData cid d =>
      unfold registryUnique
      rw [hostStep, hostConnDataEvt_others]
      exact h
  | connClose cid => exact hostConnCloseEvt_registryUnique s cid h
  | connError cid err =>
      unfold registryUnique
      rw [hostStep, hostConnErrorEvt_others]
      exact h

theorem hostDo_registryUnique (fails : Nat → Bool) (s : HostState) (a : HostAction)
    (h : registryUnique s) : registryUnique (hostDo fails s a) := by
  cases a with
  | evt e => exact hostStep_registryUnique s e fails h
  | sendOp otherId d =>
      unfold registryUnique
      rw [hostDo, hostSend_fst_others]
      exact h
  | closeOp otherId => exact hostClose_registryUnique s otherId fails h
  | closeAllOp =>
      unfold registryUnique
      rw [hostDo, hostCloseAll_others]
      exact List.nodup_nil

theorem hostRun_registryUnique (fails : Nat → Bool) (s : HostState)
    (acts : List HostAction) (h : registryUnique s) :
    registryUnique (hostRun fails s acts) :=
  foldl_preserves_prop _ registryUnique (hostDo_registryUnique fails) acts s h

theorem hostNew_registryUnique (r : Nat → Nat) : registryUnique (hostNew r) :=
  List.nodup_nil

/-- **C1.** For every sequence of actions processed by a freshly
constructed host (in particular every sequence of inbound-connection
open notifications), the registry holds at most one entry per logical
player identity; and when an open notification declares an identity
`metaId` already registered to a handle `old`, the handler first runs
`this.close(metaId)` — the intermediate state `mid` has a close request
for `old` and no entry for `metaId` — and only then inserts the new
handle `cid`, so the final state maps `metaId` to `cid` and still holds
the close request for `old` (last-connect-wins). -/
theorem hostRegistry_unique_and_lastConnectWins
    (fails : Nat → Bool) (r : Nat → Nat) (acts : List HostAction)
    (s : HostState) (cid old : Nat) (metaId : String)
    (hold : assocGet s.others metaId = some old) :
    registryUnique (hostRun fails (hostNew r) acts) ∧
    (let s0 : HostState :=
       { s with openConns := if s.openConns.contains cid then s.openConns
                             else s.openConns ++ [cid] }
     let mid : HostState := hostClose s0 metaId fails
     let res : HostState := hostConnOpenEvt s cid metaId fails
     assocGet mid.others metaId = none ∧
     old ∈ mid.closeReqs ∧
     res = { mid with others := assocSet mid.others metaId cid
                      wired := mid.wired ++ [(cid, metaId)]
                      hooks := mid.hooks ++ [HostHook.hopen metaId] } ∧
     assocGet res.others metaId = some cid ∧
     old ∈ res.closeReqs) := by
  refine ⟨hostRun_registryUnique fails (hostNew r) acts (hostNew_registryUnique r), ?_⟩
  intro s0 mid res
  have hs0 : assocGet s0.others metaId = some old := hold
  have hmid : mid = { s0 with closeReqs := s0.closeReqs ++ [old]
                              openConns := s0.openConns.filter (fun c => !(c == old))
                              others := assocDelete s0.others metaId } := by
    show hostClose s0 metaId fails = _
    unfold hostClose
    rw [hs0]
  have hres : res = { mid with others := assocSet mid.others metaId cid
                               wired := mid.wired ++ [(cid, metaId)]
                               hooks := mid.hooks ++ [HostHook.hopen metaId] } := by
    show hostConnOpenEvt s cid metaId fails = _
    unfold hostConnOpenEvt
    have hhas : assocHas s0.others metaId = true := by
      simp [assocHas, hs0]
    dsimp only
    rw [if_pos hhas]
  refine ⟨?_, ?_, hres, ?_, ?_⟩
  · rw [hmid]
    exact assocGet_delete_self s0.others metaId
  · rw [hmid]
    exact List.mem_append_right _ (List.mem_singleton.mpr rfl)
  · rw [hres]
    exact assocGet_set_self mid.others metaId cid
  · rw [hres, hmid]
    exact List.mem_append_right _ (List.mem_singleton.mpr rfl)

/-! ## The displaced connection's stale close handler (C2, C8)

When a reconnecting identity evicts an older connection, the older
connection's close handler — registered when it opened and still holding
the identity in its closure — eventually runs when the transport
delivers that connection's close notification.  Its body
`this._others.delete(otherId)` then removes whatever entry the registry
currently holds for the identity, which by that time is the NEW
connection's entry. -/

/-- Host state after: handle 1 opens declaring identity `"AAAAAAAAAA"`,
then handle 2 opens declaring the same identity, evicting handle 1
(`close` request issued, registry entry replaced by handle 2). -/
def evictedHost : HostState :=
  hostRun (fun _ => false) (hostNew (fun _ => 0))
    [HostAction.evt (HostEvent.connOpen 1 "AAAAAAAAAA"),
     HostAction.evt (HostEvent.connOpen 2 "AAAAAAAAAA")]

/-- ... and then the transport delivers the displaced handle 1's close
notification. -/
def evictedHostAfterStaleClose : HostState :=
  hostStep evictedHost (HostEvent.connClose 1) (fun _ => false)

/-- **C2 (divergence).** After the eviction completes, the registry does
map the identity to the second handle and the first handle carries a
close request; but when the displaced first connection's close
notification is subsequently delivered, its handler deletes the
identity's entry — the second connection's entry — leaving NO entry for
the identity even though handle 2 still reports open, so `send` to the
identity now returns `false`.  The claim (and spec scenario 4) says the
registry would still have exactly one entry mapping to the second
connection. -/
theorem hostEviction_staleCloseHandler_divergence :
    assocGet evictedHost.others "AAAAAAAAAA" = some 2 ∧
    (1 : Nat) ∈ evictedHost.closeReqs ∧
    assocGet evictedHostAfterStaleClose.others "AAAAAAAAAA" = none ∧
    evictedHostAfterStaleClose.openConns.contains 2 = true ∧
    (hostSend evictedHostAfterStaleClose "AAAAAAAAAA" (Payload.str "hello")).2 = false ∧
    evictedHostAfterStaleClose.hooks =
      [HostHook.hopen "AAAAAAAAAA", HostHook.hopen "AAAAAAAAAA",
       HostHook.hclose "AAAAAAAAAA"] := by
  decide

/-- **C8 (divergence).** The frame part of the claim is true: a
connection-level error notification leaves the host's registry and the
player's slot (and attempts) unchanged, invoking only the error hook.
But the "cleared only by that connection's own close notification or an
explicit call" part fails: in the eviction trace, the entry mapping the
identity to handle 2 is cleared by handle **1**'s close notification,
with no explicit `close`/`closeAll` call in that step. -/
theorem hostConnError_frame_and_staleClose_violation :
    (∀ (s : HostState) (cid : Nat) (err : String),
        (hostConnErrorEvt s cid err).others = s.others) ∧
    (∀ (s : PlayerState) (cid : Nat) (err : String),
        (playerConnErrorEvt s cid err).conn = s.conn ∧
        (playerConnErrorEvt s cid err).closeReqs = s.closeReqs) ∧
    assocGet evictedHost.others "AAAAAAAAAA" = some 2 ∧
    assocGet evictedHostAfterStaleClose.others "AAAAAAAAAA" = none := by
  refine ⟨hostConnErrorEvt_others, fun s cid err => ⟨?_, ?_⟩, by decide, by decide⟩
  · unfold playerConnErrorEvt
    refine foldl_preserves_proj _ (fun st : PlayerState => st.conn) ?_ _ _
    intro st c
    rfl
  · unfold playerConnErrorEvt
    refine foldl_preserves_proj _ (fun st : PlayerState => st.closeReqs) ?_ _ _
    intro st c
    rfl

/-- **C3.** `send(identity, data)` never throws (it is a total
function); when the identity is absent or its handle is not open it
returns `false` leaving the whole state — registry and handles —
unchanged; otherwise it forwards the payload verbatim to the handle and
returns `true`. -/
theorem hostSend_contract (s : HostState) (otherId : String) (d : Payload) :
    (assocGet s.others otherId = none → hostSend s otherId d = (s, false)) ∧
    (∀ cid, assocGet s.others otherId = some cid →
        s.openConns.contains cid = false → hostSend s otherId d = (s, false)) ∧
    (∀ cid, assocGet s.others otherId = some cid →
        s.openConns.contains cid = true →
        hostSend s otherId d = ({ s with sent := s.sent ++ [(cid, d)] }, true)) := by
  refine ⟨?_, ?_, ?_⟩
  · intro h
    unfold hostSend
    rw [h]
  · intro cid h hopen
    unfold hostSend
    rw [h]
    simp only [hopen, Bool.false_eq_true, if_false]
  · intro cid h hopen
    unfold hostSend
    rw [h]
    simp only [hopen, if_true]

/-- Witness for C3: sending to an unregistered identity (with an absent
payload) returns `false` and changes nothing; sending to a registered
open handle forwards the payload and returns `true`. -/
theorem hostSend_contract_witness :
    hostSend ⟨"ROOMCD", "JillBagHostROOMCD", [], [], [], [], [], [], 0⟩ "Y" Payload.undef
      = (⟨"ROOMCD", "JillBagHostROOMCD", [], [], [], [], [], [], 0⟩, false) ∧
    hostSend ⟨"ROOMCD", "JillBagHostROOMCD", [("X", 5)], [5], [], [(5, "X")], [], [], 0⟩
        "X" (Payload.num 3)
      = (⟨"ROOMCD", "JillBagHostROOMCD", [("X", 5)], [5], [], [(5, "X")],
          [(5, Payload.num 3)], [], 0⟩, true) := by
  constructor
  · exact (hostSend_contract _ "Y" Payload.undef).1 (by decide)
  · exact (hostSend_contract _ "X" (Payload.num 3)).2.2 5 (by decide) (by decide)

/-- Membership in `closeReqs` survives the rest of the `closeAll` loop. -/
theorem hostCloseAll_loop_mono (l : List (String × Nat)) (acc : HostState) (x : Nat)
    (h : x ∈ acc.closeReqs) : x ∈ (l.foldl hostCloseAllStep acc).closeReqs := by
  refine foldl_preserves_prop _ (fun st : HostState => x ∈ st.closeReqs) ?_ _ _ h
  intro st p hp
  exact List.mem_append_left _ hp

/-- Every entry processed by the `closeAll` loop gets a close request. -/
theorem hostCloseAll_loop_mem (l : List (String × Nat)) :
    ∀ (acc : HostState) (p : String × Nat), p ∈ l →
      p.2 ∈ (l.foldl hostCloseAllStep acc).closeReqs := by
  induction l with
  | nil => intro acc p hp; cases hp
  | cons q l ih =>
      intro acc p hp
      rw [List.foldl_cons]
      cases List.mem_cons.mp hp with
      | inl hq =>
          subst hq
          exact hostCloseAll_loop_mono l _ p.2
            (List.mem_append_right _ (List.mem_singleton.mpr rfl))
      | inr hl => exact ih _ p hl

/-- **C4.** `closeAll()` issues a close request to every registered
handle and leaves the registry empty; it touches nothing else — not the
listening address (`peerAddr`), the room code, the hooks, the handler
registrations, the sent log, or the signaling side — and its result does
not depend on which transport close requests throw (`fails`), because
every outcome is swallowed.  It never throws (it is a total function),
including on an already-empty registry. -/
theorem hostCloseAll_contract (s : HostState) (fails : Nat → Bool) :
    (hostCloseAll s fails).others = [] ∧
    (∀ p ∈ s.others, p.2 ∈ (hostCloseAll s fails).closeReqs) ∧
    (hostCloseAll s fails).peerAddr = s.peerAddr ∧
    (hostCloseAll s fails).hostId = s.hostId ∧
    (hostCloseAll s fails).hooks = s.hooks ∧
    (hostCloseAll s fails).wired = s.wired ∧
    (hostCloseAll s fails).sent = s.sent ∧
    (hostCloseAll s fails).reconnectReqs = s.reconnectReqs ∧
    hostCloseAll s fails = hostCloseAll s (fun _ => true) := by
  refine ⟨rfl, ?_, ?_, ?_, ?_, ?_, ?_, ?_, rfl⟩
  · intro p hp
    exact hostCloseAll_loop_mem s.others s p hp
  · show (s.others.foldl hostCloseAllStep s).peerAddr = s.peerAddr
    refine foldl_preserves_proj _ (fun st : HostState => st.peerAddr) ?_ _ _
    intro st p; rfl
  · show (s.others.foldl hostCloseAllStep s).hostId = s.hostId
    refine foldl_preserves_proj _ (fun st : HostState => st.hostId) ?_ _ _
    intro st p; rfl
  · show (s.others.foldl hostCloseAllStep s).hooks = s.hooks
    refine foldl_preserves_proj _ (fun st : HostState => st.hooks) ?_ _ _
    intro st p; rfl
  · show (s.others.foldl hostCloseAllStep s).wired = s.wired
    refine foldl_preserves_proj _ (fun st : HostState => st.wired) ?_ _ _
    intro st p; rfl
  · show (s.others.foldl hostCloseAllStep s).sent = s.sent
    refine foldl_preserves_proj _ (fun st : HostState => st.sent) ?_ _ _
    intro st p; rfl
  · show (s.others.foldl hostCloseAllStep s).reconnectReqs = s.reconnectReqs
    refine foldl_preserves_proj _ (fun st : HostState => st.reconnectReqs) ?_ _ _
    intro st p; rfl

/-- Witness for C4 at a concrete two-entry registry: both handles get
close requests and the registry is left empty; on an already-empty
registry the state is unchanged. -/
theorem hostCloseAll_contract_witness :
    (5 : Nat) ∈ (hostCloseAll
        ⟨"ROOMCD", "JillBagHostROOMCD", [("X", 5), ("Y", 6)], [5, 6], [], [(5, "X"), (6, "Y")],
          [], [], 0⟩ (fun _ => true)).closeReqs ∧
    (6 : Nat) ∈ (hostCloseAll
        ⟨"ROOMCD", "JillBagHostROOMCD", [("X", 5), ("Y", 6)], [5, 6], [], [(5, "X"), (6, "Y")],
          [], [], 0⟩ (fun _ => true)).closeReqs ∧
    (hostCloseAll
        ⟨"ROOMCD", "JillBagHostROOMCD", [("X", 5), ("Y", 6)], [5, 6], [], [(5, "X"), (6, "Y")],
          [], [], 0⟩ (fun _ => true)).others = [] := by
  have h := hostCloseAll_contract
    ⟨"ROOMCD", "JillBagHostROOMCD", [("X", 5), ("Y", 6)], [5, 6], [], [(5, "X"), (6, "Y")],
      [], [], 0⟩ (fun _ => true)
  refine ⟨?_, ?_, h.1⟩
  · exact h.2.1 ("X", 5) (by decide)
  · exact h.2.1 ("Y", 6) (by decide)

/-- Witness for C1 at a concrete state: identity `"X"` is registered to
handle `5`; an open notification for handle `7` declaring `"X"` leaves
the registry mapping `"X"` to `7` and a close request for `5`. -/
theorem hostRegistry_unique_and_lastConnectWins_witness :
    assocGet (hostConnOpenEvt
        ⟨"ROOMCD", "JillBagHostROOMCD", [("X", 5)], [5], [], [(5, "X")], [], [], 0⟩
        7 "X" (fun _ => false)).others "X" = some 7 ∧
    5 ∈ (hostConnOpenEvt
        ⟨"ROOMCD", "JillBagHostROOMCD", [("X", 5)], [5], [], [(5, "X")], [], [], 0⟩
        7 "X" (fun _ => false)).closeReqs := by
  have h := hostRegistry_unique_and_lastConnectWins (fun _ => false) (fun _ => 0) []
    ⟨"ROOMCD", "JillBagHostROOMCD", [("X", 5)], [5], [], [(5, "X")], [], [], 0⟩
    7 5 "X" (by decide)
  exact ⟨h.2.2.2.2.1, h.2.2.2.2.2⟩

/-- **C7.** `close(identity)` is total (a Lean function never throws)
and idempotent: afterwards the registry has no entry for the identity;
if an entry existed, its handle received a transport close request (its
outcome `f1` being discarded); on an unknown identity the call is a
complete no-op on the state; and `close(id); close(id)` leaves exactly
the state of a single `close(id)`. -/
theorem hostClose_idempotent_total (s : HostState) (otherId : String)
    (f1 f2 : Nat → Bool) :
    assocGet (hostClose s otherId f1).others otherId = none ∧
    (∀ cid, assocGet s.others otherId = some cid →
        cid ∈ (hostClose s otherId f1).closeReqs) ∧
    (assocGet s.others otherId = none → hostClose s otherId f1 = s) ∧
    hostClose (hostClose s otherId f1) otherId f2 = hostClose s otherId f1 := by
  have hnone : ∀ (st : HostState), assocGet (hostClose st otherId f1).others otherId = none := by
    intro st
    unfold hostClose
    cases assocGet st.others otherId with
    | none => exact assocGet_delete_self st.others otherId
    | some cid => exact assocGet_delete_self st.others otherId
  have hnoop : ∀ (st : HostState) (f : Nat → Bool),
      assocGet st.others otherId = none → hostClose st otherId f = st := by
    intro st f h
    unfold hostClose
    rw [h, assocDelete_of_get_none h]
  refine ⟨hnone s, ?_, hnoop s f1, hnoop _ f2 (hnone s)⟩
  intro cid h
  unfold hostClose
  rw [h]
  exact List.mem_append_right _ (List.mem_singleton.mpr rfl)

/-- Witness for C7: closing a registered identity requests a close on
its handle and empties its entry; a second `close` of the same identity
is exactly the identity function on the resulting state. -/
theorem hostClose_idempotent_total_witness :
    assocGet (hostClose
        ⟨"ROOMCD", "JillBagHostROOMCD", [("X", 5)], [5], [], [(5, "X")], [], [], 0⟩
        "X" (fun _ => false)).others "X" = none ∧
    (5 : Nat) ∈ (hostClose
        ⟨"ROOMCD", "JillBagHostROOMCD", [("X", 5)], [5], [], [(5, "X")], [], [], 0⟩
        "X" (fun _ => false)).closeReqs ∧
    hostClose (hostClose
        ⟨"ROOMCD", "JillBagHostROOMCD", [("X", 5)], [5], [], [(5, "X")], [], [], 0⟩
        "X" (fun _ => false)) "X" (fun _ => false)
      = hostClose
        ⟨"ROOMCD", "JillBagHostROOMCD", [("X", 5)], [5], [], [(5, "X")], [], [], 0⟩
        "X" (fun _ => false) := by
  have h := hostClose_idempotent_total
    ⟨"ROOMCD", "JillBagHostROOMCD", [("X", 5)], [5], [], [(5, "X")], [], [], 0⟩
    "X" (fun _ => false) (fun _ => false)
  exact ⟨h.1, h.2.1 5 (by decide), h.2.2.2⟩

/-- **C10.** Delivering the close notification of a connection whose
handlers were registered once (capturing identity `otherId`) runs
`this._others.delete(otherId); this.handleClose(otherId);` — the entry
is removed and only then the close hook is invoked, so `send(otherId, d)`
observed from within the close hook (i.e. on the resulting registry)
returns `false`. -/
theorem hostCloseNotification_removesEntryBeforeHook
    (s : HostState) (cid : Nat) (otherId : String) (d : Payload)
    (hw : s.wired.filter (fun p => p.1 == cid) = [(cid, otherId)]) :
    hostConnCloseEvt s cid =
      { s with openConns := s.openConns.filter (fun c => !(c == cid))
               others := assocDelete s.others otherId
               hooks := s.hooks ++ [HostHook.hclose otherId] } ∧
    assocGet (hostConnCloseEvt s cid).others otherId = none ∧
    (hostSend (hostConnCloseEvt s cid) otherId d).2 = false ∧
    (hostConnCloseEvt s cid).hooks = s.hooks ++ [HostHook.hclose otherId] := by
  have heq : hostConnCloseEvt s cid =
      { s with openConns := s.openConns.filter (fun c => !(c == cid))
               others := assocDelete s.others otherId
               hooks := s.hooks ++ [HostHook.hclose otherId] } := by
    unfold hostConnCloseEvt
    dsimp only
    rw [hw]
    rfl
  have hget : assocGet (hostConnCloseEvt s cid).others otherId = none := by
    rw [heq]
    exact assocGet_delete_self s.others otherId
  refine ⟨heq, hget, ?_, by rw [heq]⟩
  unfold hostSend
  rw [hget]

/-- Witness for C10: handle 5 is registered under `"X"`; delivering its
close notification removes the entry and `send` to `"X"` from the hook's
viewpoint returns `false`. -/
theorem hostCloseNotification_removesEntryBeforeHook_witness :
    assocGet (hostConnCloseEvt
        ⟨"ROOMCD", "JillBagHostROOMCD", [("X", 5)], [5], [], [(5, "X")], [], [], 0⟩
        5).others "X" = none ∧
    (hostSend (hostConnCloseEvt
        ⟨"ROOMCD", "JillBagHostROOMCD", [("X", 5)], [5], [], [(5, "X")], [], [], 0⟩
        5) "X" Payload.null).2 = false := by
  have h := hostCloseNotification_removesEntryBeforeHook
    ⟨"ROOMCD", "JillBagHostROOMCD", [("X", 5)], [5], [], [(5, "X")], [], [], 0⟩
    5 "X" Payload.null (by decide)
  exact ⟨h.2.1, h.2.2.1⟩

/-! ## Player-side claims -/

/-- **C6.** When the player processes the close notification of the
connection in its slot (whose handlers were registered once), the
handler body `this._conn = null; this.handleClose();` clears the slot
and only then invokes the close hook — so `sendHost` observed from
within the close hook (i.e. on the resulting state) returns `false`. -/
theorem playerClose_clearsSlotBeforeHook
    (s : PlayerState) (cid : Nat) (d : Payload)
    (hconn : s.conn = some cid)
    (hw : s.wired.filter (fun c => c == cid) = [cid]) :
    (playerConnCloseEvt s cid).conn = none ∧
    (playerConnCloseEvt s cid).hooks = s.hooks ++ [PlayerHook.pclose] ∧
    (playerSendHost (playerConnCloseEvt s cid) d).2 = false := by
  have heq : playerConnCloseEvt s cid =
      { s with openConns := s.openConns.filter (fun c => !(c == cid))
               conn := none
               hooks := s.hooks ++ [PlayerHook.pclose] } := by
    unfold playerConnCloseEvt
    dsimp only
    rw [hw]
    rfl
  rw [heq]
  exact ⟨rfl, rfl, rfl⟩

/-- Witness for C6: the slot holds the open handle 0, wired once; its
close notification clears the slot, fires the close hook, and a
`sendHost` from the hook returns `false`. -/
theorem playerClose_clearsSlotBeforeHook_witness :
    (playerConnCloseEvt
        ⟨"ROOMCD", "PLAYERIDAB", "JillBagPlayerPLAYERIDAB", some 0, 1, [0], [],
          [⟨"JillBagHostROOMCD", [("id", "PLAYERIDAB")], "json", 0⟩], [0], [], [], 0⟩
        0).conn = none ∧
    (playerSendHost (playerConnCloseEvt
        ⟨"ROOMCD", "PLAYERIDAB", "JillBagPlayerPLAYERIDAB", some 0, 1, [0], [],
          [⟨"JillBagHostROOMCD", [("id", "PLAYERIDAB")], "json", 0⟩], [0], [], [], 0⟩
        0) Payload.undef).2 = false := by
  have h := playerClose_clearsSlotBeforeHook
    ⟨"ROOMCD", "PLAYERIDAB", "JillBagPlayerPLAYERIDAB", some 0, 1, [0], [],
      [⟨"JillBagHostROOMCD", [("id", "PLAYERIDAB")], "json", 0⟩], [0], [], [], 0⟩
    0 Payload.undef (by decide) (by decide)
  exact ⟨h.1, h.2.2⟩

theorem playerConnDataEvt_attempts (s : PlayerState) (cid : Nat) (d : Payload) :
    (playerConnDataEvt s cid d).attempts = s.attempts := by
  unfold playerConnDataEvt
  refine foldl_preserves_proj _ (fun st : PlayerState => st.attempts) ?_ _ _
  intro st c
  rfl

theorem playerConnCloseEvt_attempts (s : PlayerState) (cid : Nat) :
    (playerConnCloseEvt s cid).attempts = s.attempts := by
  unfold playerConnCloseEvt
  refine foldl_preserves_proj _ (fun st : PlayerState => st.attempts) ?_ _ _
  intro st c
  rfl

theorem playerConnErrorEvt_attempts (s : PlayerState) (cid : Nat) (err : String) :
    (playerConnErrorEvt s cid err).attempts = s.attempts := by
  unfold playerConnErrorEvt
  refine foldl_preserves_proj _ (fun st : PlayerState => st.attempts) ?_ _ _
  intro st c
  rfl

theorem playerConnOpenEvt_attempts (s : PlayerState) (cid : Nat) :
    (playerConnOpenEvt s cid).attempts = s.attempts := by
  unfold playerConnOpenEvt
  by_cases h : cid < s.nextCid
  · rw [if_pos h]
    dsimp only
    cases s.conn with
    | none => rfl
    | some cur => rfl
  · rw [if_neg h]

/-- **C5.** The only thing that appends to the player's connect-attempt
log is a signaling-ready notification that finds no currently open
connection — and it appends exactly one attempt, dialing the host's
derived transport address with the identity metadata.  A signaling-ready
notification with an open connection, every other transport
notification, and both public operations leave the attempt log
unchanged. -/
theorem playerConnect_oncePerSignalingReady (s : PlayerState) :
    (∀ myId, playerConnIsOpen s = true →
        (playerStep s (PlayerEvent.peerOpen myId)).attempts = s.attempts) ∧
    (∀ myId, playerConnIsOpen s = false →
        (playerStep s (PlayerEvent.peerOpen myId)).attempts = s.attempts ++
          [{ target := hostPeerId s.hostId
             metadata := [("id", s.playerId)]
             serialization := "json"
             cid := s.nextCid }]) ∧
    (∀ err, (playerStep s (PlayerEvent.peerError err)).attempts = s.attempts) ∧
    (playerStep s PlayerEvent.peerDisconnected).attempts = s.attempts ∧
    (∀ cid, (playerStep s (PlayerEvent.connOpen cid)).attempts = s.attempts) ∧
    (∀ cid d, (playerStep s (PlayerEvent.connData cid d)).attempts = s.attempts) ∧
    (∀ cid, (playerStep s (PlayerEvent.connClose cid)).attempts = s.attempts) ∧
    (∀ cid err, (playerStep s (PlayerEvent.connError cid err)).attempts = s.attempts) ∧
    (∀ d, (playerSendHost s d).1.attempts = s.attempts) ∧
    (∀ fails, (playerCloseHost s fails).attempts = s.attempts) := by
  refine ⟨?_, ?_, fun err => rfl, rfl, fun cid => playerConnOpenEvt_attempts s cid,
    fun cid d => playerConnDataEvt_attempts s cid d,
    fun cid => playerConnCloseEvt_attempts s cid,
    fun cid err => playerConnErrorEvt_attempts s cid err, ?_, ?_⟩
  · intro myId h
    show (playerPeerOpenEvt s myId).attempts = s.attempts
    unfold playerPeerOpenEvt
    simp only [h, if_true]
  · intro myId h
    show (playerPeerOpenEvt s myId).attempts = _
    unfold playerPeerOpenEvt
    simp only [h, Bool.false_eq_true, if_false]
    rfl
  · intro d
    unfold playerSendHost
    cases s.conn with
    | none => rfl
    | some cid =>
        cases hopen : s.openConns.contains cid with
        | true => simp only [hopen, if_true]
        | false => simp only [hopen, Bool.false_eq_true, if_false]
  · intro fails
    unfold playerCloseHost
    cases s.conn with
    | none => rfl
    | some cid => rfl

/-- Witness for C5: a fresh player has no open connection, so the first
signaling-ready notification issues exactly one connect attempt to the
host's derived address carrying the identity under the key `"id"`; with
that connection open, a second signaling-ready notification issues no
further attempt. -/
theorem playerConnect_oncePerSignalingReady_witness :
    (playerStep (playerNew "ROOMCD" (fun _ => 0)) (PlayerEvent.peerOpen "me")).attempts =
      [{ target := "JillBagHostROOMCD"
         metadata := [("id", "AAAAAAAAAA")]
         serialization := "json"
         cid := 0 }] ∧
    (playerStep (playerStep (playerStep (playerNew "ROOMCD" (fun _ => 0))
          (PlayerEvent.peerOpen "me")) (PlayerEvent.connOpen 0))
        (PlayerEvent.peerOpen "me")).attempts =
      [{ target := "JillBagHostROOMCD"
         metadata := [("id", "AAAAAAAAAA")]
         serialization := "json"
         cid := 0 }] := by
  constructor
  · have h := (playerConnect_oncePerSignalingReady (playerNew "ROOMCD" (fun _ => 0))).2.1
      "me" (by decide)
    rw [h]
    decide
  · have h := (playerConnect_oncePerSignalingReady
        (playerStep (playerStep (playerNew "ROOMCD" (fun _ => 0))
          (PlayerEvent.peerOpen "me")) (PlayerEvent.connOpen 0))).1 "me" (by decide)
    rw [h]
    decide

/-! ## Derived addresses and identity generation (C9) -/

theorem randomString_length (len : Nat) (r : Nat → Nat) :
    (randomString len r).length = len := by
  have h : (randomString len r).length
      = ((List.range len).map
          (fun i => upperAlphabet.data.getD (r i % upperAlphabet.length) 'A')).length := rfl
  rw [h, List.length_map, List.length_range]

theorem randomString_chars (len : Nat) (r : Nat → Nat) :
    ((randomString len r).data.all (fun c => upperAlphabet.data.contains c)) = true := by
  rw [List.all_eq_true]
  intro c hc
  have hdata : (randomString len r).data
      = (List.range len).map
          (fun i => upperAlphabet.data.getD (r i % upperAlphabet.length) 'A') := rfl
  rw [hdata] at hc
  obtain ⟨i, _, rfl⟩ := List.mem_map.mp hc
  have hlt : r i % upperAlphabet.length < 26 := by
    have h26 : upperAlphabet.length = 26 := by decide
    rw [h26]
    exact Nat.mod_lt _ (by decide)
  have key : ∀ m : Fin 26,
      (upperAlphabet.data.contains (upperAlphabet.data.getD m.val 'A')) = true := by decide
  exact key ⟨r i % upperAlphabet.length, hlt⟩

/-- **C9.** The derived transport addresses are bit-exact
concatenations: the host's peer address is the fixed prefix
`"JillBagHost"` followed by its room code — a 6-character string over
the uppercase alphabet — and the player's peer address is the fixed
prefix `"JillBagPlayer"` followed by its logical player identity — a
10-character string over the uppercase alphabet.  For any
constructor-supplied `hid`, the player's (single) connect attempt dials
`"JillBagHost" ++ hid` and attaches metadata carrying its identity under
the fixed key `"id"`. -/
theorem transportAddresses_bitExact (r rp : Nat → Nat) (hid myId : String) :
    (hostNew r).peerAddr = "JillBagHost" ++ (hostNew r).hostId ∧
    (hostNew r).hostId.length = 6 ∧
    ((hostNew r).hostId.data.all (fun c => upperAlphabet.data.contains c)) = true ∧
    (playerNew hid rp).peerAddr = "JillBagPlayer" ++ (playerNew hid rp).playerId ∧
    (playerNew hid rp).playerId.length = 10 ∧
    ((playerNew hid rp).playerId.data.all (fun c => upperAlphabet.data.contains c)) = true ∧
    (playerStep (playerNew hid rp) (PlayerEvent.peerOpen myId)).attempts =
      [{ target := "JillBagHost" ++ hid
         metadata := [("id", (playerNew hid rp).playerId)]
         serialization := "json"
         cid := 0 }] ∧
    (∀ a ∈ (playerStep (playerNew hid rp) (PlayerEvent.peerOpen myId)).attempts,
        assocGet a.metadata "id" = some (playerNew hid rp).playerId) := by
  refine ⟨rfl, randomString_length 6 r, randomString_chars 6 r, rfl,
    randomString_length 10 rp, randomString_chars 10 rp, rfl, ?_⟩
  intro a ha
  have : a = { target := "JillBagHost" ++ hid
               metadata := [("id", (playerNew hid rp).playerId)]
               serialization := "json"
               cid := 0 } := by
    have hmem : a ∈ [({ target := "JillBagHost" ++ hid
                        metadata := [("id", (playerNew hid rp).playerId)]
                        serialization := "json"
                        cid := 0 } : ConnectAttempt)] := ha
    exact List.mem_singleton.mp hmem
  rw [this]
  rfl

/-- Witness for C9 (the final conjunct has a membership hypothesis):
with zero random oracles, the host address is
`"JillBagHostAAAAAA"`, the player address `"JillBagPlayerAAAAAAAAAA"`,
and the single connect attempt's metadata maps `"id"` to the player
identity. -/
theorem transportAddresses_bitExact_witness :
    (hostNew (fun _ => 0)).peerAddr = "JillBagHost" ++ (hostNew (fun _ => 0)).hostId ∧
    assocGet ({ target := "JillBagHostROOMCD"
                metadata := [("id", "AAAAAAAAAA")]
                serialization := "json"
                cid := 0 } : ConnectAttempt).metadata "id" = some "AAAAAAAAAA" := by
  have h := transportAddresses_bitExact (fun _ => 0) (fun _ => 0) "ROOMCD" "me"
  refine ⟨h.1, ?_⟩
  have hmem := h.2.2.2.2.2.2.2
  have hattempt := h.2.2.2.2.2.2.1
  have := hmem ({ target := "JillBagHostROOMCD"
                  metadata := [("id", "AAAAAAAAAA")]
                  serialization := "json"
                  cid := 0 } : ConnectAttempt)
  refine ?_
  have hpid : (playerNew "ROOMCD" (fun _ => 0)).playerId = "AAAAAAAAAA" := by decide
  rw [← hpid]
  apply this
  rw [hattempt]
  rw [hpid]
  exact List.mem_singleton.mpr rfl

end JillBag
